import Mathlib

/-!
Verification development for the aseneb repository: a shallow embedding of
the NEB (nudged elastic band) force assembly (`aseneb/palneb.py`), the
energy-unit conversion utility (`aseneb/utils.py`), the trajectory result
metrics (`aseneb/ase_result.py`), the optimizer dispatch of the NEB drivers
(`aseneb/neb_project.py`, `aseneb/neb_project_nb.py`) and the non-blocking
calculation supervisor (`aseneb/neb_project_nb.py`).

Python floats carrying the NaN sentinel are modelled as `Option ℚ`
(`none` = NaN = unknown energy); real vectors (numpy arrays, flattened)
are modelled as `List ℚ`; code that can raise returns `Except String`.
-/

/-- A flattened real vector (one numpy array of atom forces or a tangent). -/
abbrev Vec := List ℚ

/-- numpy vdot on flattened arrays: sum of elementwise products. -/
def dot (a b : Vec) : ℚ := (List.zipWith (fun x y => x * y) a b).sum

/-- Scalar multiple of a vector. -/
def smul (c : ℚ) (v : Vec) : Vec := v.map (fun x => c * x)

/-- Elementwise difference of two vectors. -/
def vsub (a b : Vec) : Vec := List.zipWith (fun x y => x - y) a b

/-- Elementwise sum of two vectors. -/
def vadd (a b : Vec) : Vec := List.zipWith (fun x y => x + y) a b

/-- Modelled from the spec: numpy argmax over a list of reals (numpy is an
external collaborator, not under src/) — index of the first occurrence of
the maximum; a later element replaces the running maximum only under
strict `>`, so ties resolve to the lowest index. -/
def np_argmax : List ℚ → ℕ
  | [] => 0
  | x :: xs =>
    if xs = [] then 0
    else if x < xs.getD (np_argmax xs) 0 then np_argmax xs + 1 else 0

/-- numpy max of a nonempty list (the empty case is never reached by the
callers embedded here; 0 stands in for it). -/
def np_max : List ℚ → ℚ
  | [] => 0
  | x :: xs => xs.foldl max x

/-- ASCII lowercasing of one character, as the Python `str.lower` method
acts on the ASCII unit strings used by this repository. -/
def py_lower_char (c : Char) : Char :=
  if 'A' ≤ c ∧ c ≤ 'Z' then Char.ofNat (c.toNat + 32) else c

/-- Python `str.lower` on ASCII strings. -/
def py_lower (s : String) : String := ⟨s.data.map py_lower_char⟩

/-- ASCII uppercasing of one character, as the Python `str.upper` method
acts on the ASCII optimizer names used by this repository. -/
def py_upper_char (c : Char) : Char :=
  if 'a' ≤ c ∧ c ≤ 'z' then Char.ofNat (c.toNat - 32) else c

/-- Python `str.upper` on ASCII strings. -/
def py_upper (s : String) : String := ⟨s.data.map py_upper_char⟩

/-- Python / numpy indexing: a negative index counts from the end; an index
out of range (after that shift) raises, modelled as `none`. -/
def py_index (len : ℕ) (i : ℤ) : Option ℕ :=
  let j : ℤ := if i < 0 then i + len else i
  if 0 ≤ j ∧ j < (len : ℤ) then some j.toNat else none

namespace aseneb.utils

/-- Shallow embedding of `utils.energy_conversion` (src/aseneb/utils.py,
lines 36-52).  The Python code initialises `conv = 1.00`, overwrites it in
the recognised branches, leaves it untouched in the `eV` branch (whose
condition compares the lowercased unit to the literal string "eV", which
contains an uppercase V), and raises `RuntimeError` otherwise; the raise is
modelled as `Except.error` with the message text. -/
def energy_conversion (energies : ℚ) (energy_unit : String) : Except String ℚ :=
  if py_lower energy_unit = "kcal/mol" then Except.ok (energies * 23.06031)
  else if py_lower energy_unit = "kj/mol" then Except.ok (energies * 96.48534)
  else if (py_lower energy_unit = "hartrees" ∨ py_lower energy_unit = "hartree"
      ∨ py_lower energy_unit = "au" ∨ py_lower energy_unit = "a.u.") then
    Except.ok (energies * 3.674932e-2)
  else if py_lower energy_unit = "eV" then Except.ok (energies * 1.00)
  else Except.error "energy_unit should be kcal/mol, eV, or kJ/mol"

end aseneb.utils

namespace NEBResult

/-- One iteration of the trajectory: the per-node energies, `none` for the
numpy NaN sentinel written when a frame has no stored energy
(src/aseneb/ase_result.py, lines 26-35). -/
abbrev Energies := List (Option ℚ)

/-- Shallow embedding of `NEBResult.is_energy_completed`
(src/aseneb/ase_result.py, lines 37-44): scans every iteration and returns
False as soon as one row holds a NaN. -/
def is_energy_completed (energies_list : List Energies) : Bool :=
  energies_list.all (fun energies => !(energies.any (fun e => e.isNone)))

/-- Shallow embedding of `NEBResult.complete_energy`
(src/aseneb/ase_result.py, lines 46-53): for every iteration row, write
`energy` at `index` (Python indexing, so -1 is the last node) when the
stored value is NaN or `overwrite` is set.  An out-of-range index raises
IndexError, modelled as `Except.error`. -/
def complete_energy (energies_list : List Energies) (index : ℤ) (energy : ℚ)
    (overwrite : Bool) : Except String (List Energies) :=
  match energies_list with
  | [] => Except.ok []
  | row :: rest =>
    match py_index row.length index with
    | none => Except.error "IndexError: index out of bounds"
    | some j =>
      match complete_energy rest index energy overwrite with
      | Except.error e => Except.error e
      | Except.ok rest2 =>
        Except.ok ((if (row.getD j none).isNone || overwrite
          then row.set j (some energy) else row) :: rest2)

/-- Shallow embedding of `NEBResult.get_barrier`
(src/aseneb/ase_result.py, lines 91-95): refuses to compute when some
energy is unknown, then returns `np.max(energies) - energies[0]` converted
to the requested unit.  The value branch is reached only after the
completeness check succeeded, so every entry is known there and the
`Option.getD 0` stripping reads no default. -/
def get_barrier (energies_list : List Energies) (iteration : ℤ)
    (energy_unit : String) : Except String ℚ :=
  if is_energy_completed energies_list = false then
    Except.error "Some energy information is missing. Check the initial and final Atoms."
  else
    match py_index energies_list.length iteration with
    | none => Except.error "IndexError: list index out of range"
    | some it =>
      let energies := (energies_list.getD it []).map (fun e => e.getD 0)
      aseneb.utils.energy_conversion (np_max energies - energies.getD 0 0) energy_unit

/-- Shallow embedding of `NEBResult.get_highest_node_index`
(src/aseneb/ase_result.py, lines 97-98): `int(np.argmax(...))` with no
completeness check.  numpy argmax on data holding a NaN returns the index
of the first NaN, and raises ValueError on an empty array. -/
def get_highest_node_index (energies_list : List Energies) (iteration : ℤ) :
    Except String ℕ :=
  match py_index energies_list.length iteration with
  | none => Except.error "IndexError: list index out of range"
  | some it =>
    let energies := energies_list.getD it []
    if energies = [] then
      Except.error "ValueError: attempt to get argmax of an empty sequence"
    else
      match energies.findIdx? (fun e => e.isNone) with
      | some j => Except.ok j
      | none => Except.ok (np_argmax (energies.map (fun e => e.getD 0)))

/-- Shallow embedding of `NEBResult.get_reaction_energy_change`
(src/aseneb/ase_result.py, lines 100-104): refuses to compute when some
energy is unknown, then returns `energies[-1] - energies[0]` converted to
the requested unit. -/
def get_reaction_energy_change (energies_list : List Energies) (iteration : ℤ)
    (energy_unit : String) : Except String ℚ :=
  if is_energy_completed energies_list = false then
    Except.error "Some energy information is missing. Check the initial and final Atoms."
  else
    match py_index energies_list.length iteration with
    | none => Except.error "IndexError: list index out of range"
    | some it =>
      let energies := (energies_list.getD it []).map (fun e => e.getD 0)
      aseneb.utils.energy_conversion
        (energies.getD (energies.length - 1) 0 - energies.getD 0 0) energy_unit

end NEBResult

namespace PalNEB

/-- Modelled from the spec: the gather step of `multiprocessing.Pool.map`
(external collaborator).  Workers finish in an arbitrary order given by
`order`; each finished job `j` stores its result in slot `j` of the result
list, so the output is in submission order however the workers interleave. -/
def pool_gather {α : Type} (f : ℕ → α) (n : ℕ) (order : List ℕ) : List (Option α) :=
  order.foldl (fun acc j => acc.set j (some (f j))) (List.replicate n none)

/-- Default value used to strip the `Option` wrapping of `pool_gather`
slots; never read once every submitted job has completed. -/
def ef_default : ℚ × Vec := (0, [])

/-- Shallow embedding of the evaluation and assembly part of
`PalNEB.get_forces` (src/aseneb/palneb.py, lines 46-68).  `ev i` is the
provider result (energy, forces) of image `i`; `order` is the completion
order of the pool workers.  `energies` starts as `np.empty(nimages)` and
`forces` as `np.empty((nimages-2, natoms, 3))`, modelled as lists of `none`
slots.  For every method other than aseneb all images are submitted to the
pool and the endpoint energies `energies[0]` and `energies[-1]` are
recorded; for the aseneb method only the interior images `images[1:-1]`
are submitted and the loop reads `energy_forces[i-1]` for image `i`. -/
def get_forces_assembly (method : String) (nimages : ℕ) (ev : ℕ → ℚ × Vec)
    (order : List ℕ) : List (Option ℚ) × List (Option Vec) :=
  if method ≠ "aseneb" then
    let ef := (pool_gather ev nimages order).map (fun o => o.getD ef_default)
    let energies := ((List.replicate nimages (none : Option ℚ)).set 0
      (some (ef.getD 0 ef_default).1)).set (nimages - 1)
      (some (ef.getD (nimages - 1) ef_default).1)
    (List.range' 1 (nimages - 2)).foldl
      (fun p i => (p.1.set i (some (ef.getD i ef_default).1),
                   p.2.set (i - 1) (some (ef.getD i ef_default).2)))
      (energies, List.replicate (nimages - 2) (none : Option Vec))
  else
    let ef := (pool_gather (fun j => ev (j + 1)) (nimages - 2) order).map
      (fun o => o.getD ef_default)
    (List.range' 1 (nimages - 2)).foldl
      (fun p i => (p.1.set i (some (ef.getD (i - 1) ef_default).1),
                   p.2.set (i - 1) (some (ef.getD (i - 1) ef_default).2)))
      (List.replicate nimages (none : Option ℚ),
       List.replicate (nimages - 2) (none : Option Vec))

/-- The interior energies `energies[1:-1]`. -/
def interior_energies (energies : List ℚ) : List ℚ := (energies.drop 1).dropLast

/-- Modelled from the spec: the ASE `NEBState.imax` property (external ASE
collaborator, not under src/) — the index of the maximum-energy interior
image, with strict `>` comparison and ties broken to the lowest index
(`1 + np.argmax(energies[1:-1])`). -/
def state_imax (energies : List ℚ) : ℕ := 1 + np_argmax (interior_energies energies)

/-- Modelled from the spec: `NEBMethod.add_image_force` of the default
aseneb method (external ASE collaborator, not under src/) — discards the
tangential component of the potential force and adds the spring
contribution `springDelta` along the (normalised) tangent. -/
def add_image_force (tangential_force : ℚ) (tangent imgforce : Vec)
    (springDelta : ℚ) : Vec :=
  vadd (vsub imgforce (smul (tangential_force / dot tangent tangent) tangent))
       (smul (springDelta / dot tangent tangent) tangent)

/-- Shallow embedding of the per-image body of the force-projection loop of
`PalNEB.get_forces` (src/aseneb/palneb.py, lines 92-120), with the default
identity preconditioner (`PalNEB` passes `precon=None`, and
`PreconImages.apply` leaves the forces unchanged for it): the image equal
to `state_imax` with climbing enabled feels the full potential force with
its tangential component inverted (for the aseneb method the tangent is
normalised by `np.vdot(tangent, tangent)`) and receives no spring force;
every other interior image goes through `add_image_force`.  `force i` is
the raw potential force of image `i`, `tangent i` the tangent delivered by
`neb_method.get_tangent`, and `springDelta i` the scalar spring term. -/
def neb_image_force (climb : Bool) (method : String) (energies : List ℚ)
    (force : ℕ → Vec) (tangent : ℕ → Vec) (springDelta : ℕ → ℚ) (i : ℕ) : Vec :=
  let t := tangent i
  let tangential_force := dot (force i) t
  if i = state_imax energies ∧ climb = true then
    if method = "aseneb" then
      vsub (force i) (smul (2 * tangential_force / dot t t) t)
    else
      vsub (force i) (smul (2 * tangential_force) t)
  else
    add_image_force tangential_force t (force i) (springDelta i)

/-- Shallow embedding of the whole force-projection loop of
`PalNEB.get_forces` (src/aseneb/palneb.py, lines 92-121): one output
vector per interior image `i ∈ 1..nimages-2`, in order. -/
def get_forces_loop (climb : Bool) (method : String) (energies : List ℚ)
    (force : ℕ → Vec) (tangent : ℕ → Vec) (springDelta : ℕ → ℚ)
    (nimages : ℕ) : List Vec :=
  (List.range' 1 (nimages - 2)).map
    (neb_image_force climb method energies force tangent springDelta)

end PalNEB

/-- One `optimizer.run(...)` invocation performed by the NEB drivers;
optimization iterations happen only inside these. -/
inductive OptRun
  | fire (fmax : ℚ) (steps : ℕ)
  | lbfgs (fmax : ℚ) (steps : ℕ)
  | lbfgsLineSearch (fmax : ℚ) (steps : ℕ)

/-- Message of the `RuntimeError` raised for an unknown optimizer string
(src/aseneb/neb_project.py line 263 and src/aseneb/neb_project_nb.py
line 303). -/
def invalid_optimizer_msg : String :=
  "Optimizer is invalid [FIRE, LBFGS, LBFGSLineSearch, Composite]"

/-- Shallow embedding of the optimizer dispatch shared by
`NEBProject.run_neb` (src/aseneb/neb_project.py, lines 247-263) and
`_run_neb` (src/aseneb/neb_project_nb.py, lines 282-303): the optimizer
name is uppercased and matched against the four known optimizers; the
composite policy first runs FIRE to `max(0.1, fmax)` and then LBFGS to
`fmax`; anything else raises `RuntimeError`. -/
def dispatch_optimizer (optimizer : String) (fmax : ℚ) (steps : ℕ) :
    Except String (List OptRun) :=
  if py_upper optimizer = "FIRE" then Except.ok [OptRun.fire fmax steps]
  else if py_upper optimizer = "LBFGS" then Except.ok [OptRun.lbfgs fmax steps]
  else if py_upper optimizer = "LBFGSLINESEARCH" then
    Except.ok [OptRun.lbfgsLineSearch fmax steps]
  else if py_upper optimizer = "COMPOSITE" then
    Except.ok [OptRun.fire (max (1 / 10) fmax) steps, OptRun.lbfgs fmax steps]
  else Except.error invalid_optimizer_msg

namespace NEBProject

/-- Shallow embedding of the control skeleton of the blocking
`NEBProject.run_neb` (src/aseneb/neb_project.py, lines 195-270): the
previous trajectory must exist, then the optimizer dispatch either raises
to the caller — before any `optimizer.run` call, hence before any
optimization iteration — or yields the list of optimizer runs performed.
File preparation and the NEB object construction are abstracted away. -/
def run_neb (optimizer : String) (fmax : ℚ) (steps : ℕ)
    (prev_file_exists : Bool) : Except String (List OptRun) :=
  if prev_file_exists = false then Except.error "prev_file is not found."
  else dispatch_optimizer optimizer fmax steps

end NEBProject

/-- A spawned `multiprocessing.Process`: its name, what its body will do
when scheduled (the `_run_neb` / `_run_opt` / `_run_single_point` /
`_run_g16_init_guess` outcome), and whether it is still alive. -/
structure ChildProc where
  name : String
  body : Except String (List OptRun)
  alive : Bool

/-- The mutable state of a `NEBProjectNonBlocking` supervisor: the
`calculation_process` handle (`None` when no task is registered) and the
set of files present in the working directory. -/
structure NBState where
  calculation_process : Option ChildProc
  files : List String

namespace NEBProjectNonBlocking

/-- Output file name of `NEBProject.neb_path_traj_file` (the project-name
part of the path is abstracted away). -/
def neb_path_traj_file (number : ℕ) : String :=
  "neb_path_" ++ toString number ++ ".traj"

/-- Output file name of `NEBProject.neb_path_log_file`. -/
def neb_path_log_file (number : ℕ) : String :=
  "neb_path_" ++ toString number ++ ".log"

/-- Output file name of `NEBProject.neb_path_xyz_file`. -/
def neb_path_xyz_file (number : ℕ) : String :=
  "neb_path_" ++ toString number ++ ".xyz"

/-- Output file name of `NEBProject.neb_path_optimized_xyz_file`. -/
def neb_path_optimized_xyz_file (number : ℕ) : String :=
  "neb_path_optimized_" ++ toString number ++ ".xyz"

/-- Shallow embedding of `NEBProjectNonBlocking.run_neb`
(src/aseneb/neb_project_nb.py, lines 25-93).  A registered
`calculation_process` makes the call return `False` immediately, touching
nothing.  Otherwise the previous trajectory must exist, the four output
files are cleared, and a background process named `neb<k+1>` is spawned
whose body performs the optimizer dispatch of `_run_neb` — the dispatch
(and so its error for an unknown optimizer) happens inside the spawned
process, after the call already returned `True`. -/
def run_neb (s : NBState) (optimizer : String) (fmax : ℚ) (steps : ℕ)
    (prev_number : ℕ) (prev_file_exists : Bool) : Except String (Bool × NBState) :=
  if s.calculation_process.isSome then Except.ok (false, s)
  else if prev_file_exists = false then Except.error "prev_file is not found."
  else
    let files := (((s.files.erase (neb_path_traj_file (prev_number + 1))).erase
      (neb_path_log_file (prev_number + 1))).erase
      (neb_path_xyz_file (prev_number + 1))).erase
      (neb_path_optimized_xyz_file (prev_number + 1))
    Except.ok (true,
      { calculation_process := some
          { name := "neb" ++ toString (prev_number + 1),
            body := dispatch_optimizer optimizer fmax steps,
            alive := true },
        files := files })

/-- Shallow embedding of `NEBProjectNonBlocking.load_init_structure`
(src/aseneb/neb_project_nb.py, lines 95-125): rejected with `False` while
a process is registered; otherwise the init output files are cleared and
an `opt_init` or `sp_init` process is spawned. -/
def load_init_structure (s : NBState) (opt_init : Bool) : Bool × NBState :=
  if s.calculation_process.isSome then (false, s)
  else
    let files := ((s.files.erase "init.traj").erase "init.log").erase "init.xyz"
    (true,
      { calculation_process := some
          { name := if opt_init then "opt_init" else "sp_init",
            body := Except.ok [], alive := true },
        files := files })

/-- Shallow embedding of `NEBProjectNonBlocking.load_final_structure`
(src/aseneb/neb_project_nb.py, lines 127-156): rejected with `False` while
a process is registered; otherwise the final output files are cleared and
an `opt_final` or `sp_final` process is spawned. -/
def load_final_structure (s : NBState) (opt_final : Bool) : Bool × NBState :=
  if s.calculation_process.isSome then (false, s)
  else
    let files := ((s.files.erase "final.traj").erase "final.log").erase "final.xyz"
    (true,
      { calculation_process := some
          { name := if opt_final then "opt_final" else "sp_final",
            body := Except.ok [], alive := true },
        files := files })

/-- Shallow embedding of `NEBProjectNonBlocking.run_g16_init_guess`
(src/aseneb/neb_project_nb.py, lines 158-218): rejected with `False` while
a process is registered; otherwise a `g16_init_guess` process is spawned
and the Python function falls off the end, returning `None` (gjf file
preparation is abstracted away). -/
def run_g16_init_guess (s : NBState) : Option Bool × NBState :=
  if s.calculation_process.isSome then (some false, s)
  else
    (none,
      { calculation_process := some
          { name := "g16_init_guess", body := Except.ok [], alive := true },
        files := s.files })

/-- Shallow embedding of `NEBProjectNonBlocking.check`
(src/aseneb/neb_project_nb.py, lines 220-235): -1 when no process is
registered, 1 while the process is alive (no state change), and otherwise
a one-time join/close that clears the handle and returns 0. -/
def check (s : NBState) : ℤ × NBState :=
  match s.calculation_process with
  | none => (-1, s)
  | some p =>
    if p.alive then (1, s)
    else (0, { s with calculation_process := none })

/-- Shallow embedding of `NEBProjectNonBlocking.terminate`
(src/aseneb/neb_project_nb.py, lines 237-242): kill, join, close and clear
the handle.  When no process is registered, the very first statement
`self.calculation_process.terminate()` is an attribute access on `None`
and raises `AttributeError`. -/
def terminate (s : NBState) : Except String NBState :=
  match s.calculation_process with
  | none =>
    Except.error "AttributeError: NoneType object has no attribute terminate"
  | some _ => Except.ok { s with calculation_process := none }

end NEBProjectNonBlocking

/-- C3: the claim says converting to eV succeeds and returns the input
times 1.0, and that units are matched case-insensitively; the code instead
compares the lowercased unit to the literal "eV", which can never match,
so every casing of eV raises the RuntimeError.  The remaining factors of
the table do hold. -/
theorem energy_conversion_eV_unreachable :
    aseneb.utils.energy_conversion 1 "eV" =
      Except.error "energy_unit should be kcal/mol, eV, or kJ/mol" ∧
    aseneb.utils.energy_conversion 1 "ev" =
      Except.error "energy_unit should be kcal/mol, eV, or kJ/mol" ∧
    aseneb.utils.energy_conversion 1 "EV" =
      Except.error "energy_unit should be kcal/mol, eV, or kJ/mol" ∧
    aseneb.utils.energy_conversion 1 "kcal/mol" = Except.ok 23.06031 ∧
    aseneb.utils.energy_conversion 2 "KJ/mol" = Except.ok 192.97068 ∧
    aseneb.utils.energy_conversion 1 "Hartree" = Except.ok 0.03674932 := by
  refine ⟨?_, ?_, ?_, ?_, ?_, ?_⟩
  · unfold aseneb.utils.energy_conversion
    rw [show py_lower "eV" = "ev" from by decide, if_neg (by decide),
      if_neg (by decide), if_neg (by decide), if_neg (by decide)]
  · unfold aseneb.utils.energy_conversion
    rw [show py_lower "ev" = "ev" from by decide, if_neg (by decide),
      if_neg (by decide), if_neg (by decide), if_neg (by decide)]
  · unfold aseneb.utils.energy_conversion
    rw [show py_lower "EV" = "ev" from by decide, if_neg (by decide),
      if_neg (by decide), if_neg (by decide), if_neg (by decide)]
  · unfold aseneb.utils.energy_conversion
    rw [show py_lower "kcal/mol" = "kcal/mol" from by decide, if_pos (by decide)]
    norm_num
  · unfold aseneb.utils.energy_conversion
    rw [show py_lower "KJ/mol" = "kj/mol" from by decide, if_neg (by decide),
      if_pos (by decide)]
    norm_num
  · unfold aseneb.utils.energy_conversion
    rw [show py_lower "Hartree" = "hartree" from by decide, if_neg (by decide),
      if_neg (by decide), if_pos (by decide)]
    norm_num

/-- C4, counterexample: on a result with one unknown (NaN) energy, the
derived-metric query `get_highest_node_index` does not raise — it returns
the numpy argmax (the first NaN position) as a value, so the claim that
every derived-metric query raises on incomplete data is false. -/
theorem get_highest_node_index_ignores_missing :
    NEBResult.is_energy_completed [[some 0, none, some 1]] = false ∧
    NEBResult.get_highest_node_index [[some 0, none, some 1]] (-1) = Except.ok 1 := by
  exact ⟨by decide, by rfl⟩

/-- C4, amended: on a result with at least one unknown (NaN) energy,
`get_barrier` and `get_reaction_energy_change` raise for every iteration
argument and unit, while `get_highest_node_index` performs no completeness
check and returns a value for every in-range iteration argument whose row
is nonempty. -/
theorem incomplete_energy_metrics (energies_list : List NEBResult.Energies)
    (h : NEBResult.is_energy_completed energies_list = false) :
    (∀ it u, NEBResult.get_barrier energies_list it u =
      Except.error "Some energy information is missing. Check the initial and final Atoms.") ∧
    (∀ it u, NEBResult.get_reaction_energy_change energies_list it u =
      Except.error "Some energy information is missing. Check the initial and final Atoms.") ∧
    (∀ it j, py_index energies_list.length it = some j →
      energies_list.getD j [] ≠ [] →
      ∃ k, NEBResult.get_highest_node_index energies_list it = Except.ok k) := by
  refine ⟨fun it u => ?_, fun it u => ?_, fun it j hj hne => ?_⟩
  · simp [NEBResult.get_barrier, h]
  · simp [NEBResult.get_reaction_energy_change, h]
  · simp only [NEBResult.get_highest_node_index, hj]
    rw [if_neg hne]
    cases hfind : (energies_list.getD j []).findIdx? (fun e => e.isNone) with
    | none => exact ⟨_, rfl⟩
    | some k => exact ⟨k, rfl⟩

/-- C4, witness for the amended theorem at a concrete incomplete result. -/
theorem incomplete_energy_metrics_witness :
    NEBResult.is_energy_completed [[some 0, none]] = false ∧
    ((∀ it u, NEBResult.get_barrier [[some 0, none]] it u =
      Except.error "Some energy information is missing. Check the initial and final Atoms.") ∧
    (∀ it u, NEBResult.get_reaction_energy_change [[some 0, none]] it u =
      Except.error "Some energy information is missing. Check the initial and final Atoms.") ∧
    (∀ it j, py_index ([[some 0, none]] : List NEBResult.Energies).length it = some j →
      ([[some 0, none]] : List NEBResult.Energies).getD j [] ≠ [] →
      ∃ k, NEBResult.get_highest_node_index [[some 0, none]] it = Except.ok k)) :=
  ⟨by decide, incomplete_energy_metrics [[some 0, none]] (by decide)⟩

/-- C5, counterexample: starting a NEB run through the non-blocking
supervisor with the unknown optimizer string "BOGUS" is accepted — the
call returns True and a background process is spawned; the invalid
optimizer error only exists inside the body of that spawned process, not
as an error raised to the caller before the start is accepted. -/
theorem run_neb_nb_accepts_invalid_optimizer :
    NEBProjectNonBlocking.run_neb ⟨none, []⟩ "BOGUS" 1 100 0 true =
      Except.ok (true,
        ⟨some ⟨"neb1", Except.error invalid_optimizer_msg, true⟩, []⟩) := by
  rfl

/-- C5, amended: for an unknown optimizer string, the blocking
`NEBProject.run_neb` raises the invalid-optimizer error to the caller
before any `optimizer.run` call (so before any optimization iteration),
while the non-blocking variant accepts the start (returns True) and spawns
a background process; the error is raised inside that process, again
before any optimization iteration begins. -/
theorem invalid_optimizer_dispatch (optimizer : String) (fmax : ℚ) (steps : ℕ)
    (files : List String) (prev_number : ℕ)
    (h : py_upper optimizer ∉ ["FIRE", "LBFGS", "LBFGSLINESEARCH", "COMPOSITE"]) :
    NEBProject.run_neb optimizer fmax steps true = Except.error invalid_optimizer_msg ∧
    ∃ s', NEBProjectNonBlocking.run_neb ⟨none, files⟩ optimizer fmax steps prev_number true
        = Except.ok (true, s') ∧
      ∃ p, s'.calculation_process = some p ∧
        p.body = Except.error invalid_optimizer_msg ∧
        p.name = "neb" ++ toString (prev_number + 1) := by
  simp only [List.mem_cons, List.not_mem_nil, or_false, not_or] at h
  obtain ⟨h1, h2, h3, h4⟩ := h
  have hd : dispatch_optimizer optimizer fmax steps = Except.error invalid_optimizer_msg := by
    simp [dispatch_optimizer, h1, h2, h3, h4]
  refine ⟨?_, ?_⟩
  · simp [NEBProject.run_neb, hd]
  · refine ⟨_, rfl, _, rfl, ?_, rfl⟩
    exact hd

/-- C5, witness for the amended theorem at the concrete optimizer "BOGUS". -/
theorem invalid_optimizer_dispatch_witness :
    py_upper "BOGUS" ∉ ["FIRE", "LBFGS", "LBFGSLINESEARCH", "COMPOSITE"] ∧
    (NEBProject.run_neb "BOGUS" 1 100 true = Except.error invalid_optimizer_msg ∧
    ∃ s', NEBProjectNonBlocking.run_neb ⟨none, []⟩ "BOGUS" 1 100 0 true
        = Except.ok (true, s') ∧
      ∃ p, s'.calculation_process = some p ∧
        p.body = Except.error invalid_optimizer_msg ∧
        p.name = "neb" ++ toString (0 + 1)) :=
  ⟨by decide, invalid_optimizer_dispatch "BOGUS" 1 100 [] 0 (by decide)⟩

/-- C6: while a background calculation process is registered, each of the
four start operations of the non-blocking supervisor returns the
non-exceptional rejection False, spawns nothing, and leaves the whole
supervisor state — process handle and files — unchanged. -/
theorem busy_supervisor_rejects_starts (p : ChildProc) (files : List String)
    (optimizer : String) (fmax : ℚ) (steps prev_number : ℕ)
    (prev_file_exists : Bool) (opt_init opt_final : Bool) :
    NEBProjectNonBlocking.run_neb ⟨some p, files⟩ optimizer fmax steps
      prev_number prev_file_exists = Except.ok (false, ⟨some p, files⟩) ∧
    NEBProjectNonBlocking.load_init_structure ⟨some p, files⟩ opt_init
      = (false, ⟨some p, files⟩) ∧
    NEBProjectNonBlocking.load_final_structure ⟨some p, files⟩ opt_final
      = (false, ⟨some p, files⟩) ∧
    NEBProjectNonBlocking.run_g16_init_guess ⟨some p, files⟩
      = (some false, ⟨some p, files⟩) :=
  ⟨rfl, rfl, rfl, rfl⟩

/-- C7: `check` is a tri-state poll — -1 with no registered process, 1
with no state change while the process is alive, and 0 exactly once after
it died: the handle is cleared, the next poll returns -1, and a subsequent
start is accepted. -/
theorem check_tristate (p : ChildProc) (files : List String) :
    NEBProjectNonBlocking.check ⟨none, files⟩ = (-1, ⟨none, files⟩) ∧
    NEBProjectNonBlocking.check ⟨some { p with alive := true }, files⟩
      = (1, ⟨some { p with alive := true }, files⟩) ∧
    NEBProjectNonBlocking.check ⟨some { p with alive := false }, files⟩
      = (0, ⟨none, files⟩) ∧
    (NEBProjectNonBlocking.check ⟨none, files⟩).1 = -1 ∧
    ∃ s', NEBProjectNonBlocking.run_neb ⟨none, files⟩ "FIRE" 1 100 0 true
      = Except.ok (true, s') :=
  ⟨rfl, rfl, rfl, rfl, ⟨_, rfl⟩⟩

/-- C8: terminating a supervisor with a running process clears the handle
(back to the not-started state), and a subsequent start — here a NEB run
whose previous trajectory exists — is accepted with True rather than
rejected with the busy False. -/
theorem terminate_then_start_accepted (p : ChildProc) (files : List String)
    (optimizer : String) (fmax : ℚ) (steps prev_number : ℕ) :
    NEBProjectNonBlocking.terminate ⟨some p, files⟩ = Except.ok ⟨none, files⟩ ∧
    ∃ s', NEBProjectNonBlocking.run_neb ⟨none, files⟩ optimizer fmax steps
        prev_number true = Except.ok (true, s') ∧
      s'.calculation_process.isSome = true :=
  ⟨rfl, ⟨_, rfl, rfl⟩⟩

/-- C10: terminating a supervisor with no registered process is not a
no-op — the first statement dereferences `None` and raises
AttributeError; `terminate` is safe only after a start that has not been
drained by `check`. -/
theorem terminate_on_idle_raises (files : List String) (p : ChildProc) :
    NEBProjectNonBlocking.terminate ⟨none, files⟩ =
      Except.error "AttributeError: NoneType object has no attribute terminate" ∧
    NEBProjectNonBlocking.terminate ⟨some p, files⟩ = Except.ok ⟨none, files⟩ :=
  ⟨rfl, rfl⟩

/-- Helper: `List.getD` after `List.set` at the same in-range position. -/
theorem getD_set_self {α : Type} (l : List α) (n : ℕ) (a d : α)
    (h : n < l.length) : (l.set n a).getD n d = a := by
  rw [List.getD_eq_getElem?_getD, List.getElem?_set_self h]
  rfl

/-- Helper: `List.getD` after `List.set` at a different position. -/
theorem getD_set_ne {α : Type} (l : List α) (m n : ℕ) (a d : α)
    (h : m ≠ n) : (l.set m a).getD n d = l.getD n d := by
  rw [List.getD_eq_getElem?_getD, List.getElem?_set_ne h,
    ← List.getD_eq_getElem?_getD]

/-- Helper: on rows of uniform length `N`, `complete_energy` succeeds and
acts as the per-row conditional update at the resolved index `j`. -/
theorem complete_energy_spec (index : ℤ) (energy : ℚ) (ow : Bool) (N : ℕ)
    (j : ℕ) (hj : py_index N index = some j) :
    ∀ (l : List NEBResult.Energies), (∀ row ∈ l, row.length = N) →
      NEBResult.complete_energy l index energy ow = Except.ok (l.map (fun row =>
        if (row.getD j none).isNone || ow then row.set j (some energy) else row)) := by
  intro l
  induction l with
  | nil => intro _; rfl
  | cons row rest ih =>
    intro hrows
    have hrow : row.length = N := hrows row (by simp)
    have hrest : ∀ r ∈ rest, r.length = N := fun r hr => hrows r (by simp [hr])
    simp only [NEBResult.complete_energy, hrow, hj, ih hrest, List.map_cons]

/-- C9: `is_energy_completed` is false exactly when some node of some
iteration is unknown, and back-filling node 0 and node -1 (the last node)
with known endpoint energies and `overwrite=False` makes those two
positions known in every iteration while leaving every already-known
energy value unchanged. -/
theorem energy_completion_and_backfill (energies_list : List NEBResult.Energies)
    (N : ℕ) (hN : 1 ≤ N) (hrows : ∀ row ∈ energies_list, row.length = N)
    (e e2 : ℚ) :
    (NEBResult.is_energy_completed energies_list = false ↔
      ∃ row ∈ energies_list, ∃ x ∈ row, x = none) ∧
    ∃ r1 r2,
      NEBResult.complete_energy energies_list 0 e false = Except.ok r1 ∧
      NEBResult.complete_energy r1 (-1) e2 false = Except.ok r2 ∧
      (∀ row ∈ r2, (row.getD 0 none).isSome = true ∧
        (row.getD (N - 1) none).isSome = true) ∧
      (∀ i k v, (energies_list.getD i []).getD k none = some v →
        (r2.getD i []).getD k none = some v) := by
  constructor
  · simp [NEBResult.is_energy_completed, List.all_eq_false, List.any_eq_true,
      Option.isNone_iff_eq_none]
  · have h0 : py_index N 0 = some 0 := by
      unfold py_index
      norm_num
      intro h
      exfalso
      omega
    have hlast : py_index N (-1) = some (N - 1) := by
      unfold py_index
      norm_num
      exact ⟨hN, by omega⟩
    set f0 : List (Option ℚ) → List (Option ℚ) := fun row =>
      if (row.getD 0 none).isNone || false then row.set 0 (some e) else row with hf0
    set f1 : List (Option ℚ) → List (Option ℚ) := fun row =>
      if (row.getD (N - 1) none).isNone || false then row.set (N - 1) (some e2)
      else row with hf1
    have hc1 : NEBResult.complete_energy energies_list 0 e false
        = Except.ok (energies_list.map f0) :=
      complete_energy_spec 0 e false N 0 h0 energies_list hrows
    have hlen0 : ∀ row, (f0 row).length = row.length := by
      intro row
      simp only [hf0]
      split <;> simp
    have hlen1 : ∀ row, (f1 row).length = row.length := by
      intro row
      simp only [hf1]
      split <;> simp
    have hrows1 : ∀ row ∈ energies_list.map f0, row.length = N := by
      intro row hr
      obtain ⟨orig, ho, rfl⟩ := List.mem_map.mp hr
      rw [hlen0]
      exact hrows orig ho
    have hc2 : NEBResult.complete_energy (energies_list.map f0) (-1) e2 false
        = Except.ok ((energies_list.map f0).map f1) :=
      complete_energy_spec (-1) e2 false N (N - 1) hlast _ hrows1
    refine ⟨_, _, hc1, hc2, ?_, ?_⟩
    · intro row hr
      obtain ⟨mid, hmid, rfl⟩ := List.mem_map.mp hr
      obtain ⟨orig, ho, rfl⟩ := List.mem_map.mp hmid
      have hNorig : orig.length = N := hrows orig ho
      have hmidlen : (f0 orig).length = N := by rw [hlen0]; exact hNorig
      constructor
      · -- node 0 is known after both fills
        have hmid0 : ((f0 orig).getD 0 none).isSome = true := by
          simp only [hf0, Bool.or_false]
          by_cases hb : (orig.getD 0 none).isNone = true
          · rw [if_pos hb, getD_set_self _ _ _ _ (by omega)]
            rfl
          · rw [if_neg hb]
            simpa [Option.isSome_iff_ne_none, Option.isNone_iff_eq_none] using hb
        simp only [hf1, Bool.or_false]
        by_cases hb : ((f0 orig).getD (N - 1) none).isNone = true
        · rw [if_pos hb]
          by_cases hz : N - 1 = 0
          · rw [hz, getD_set_self _ _ _ _ (by omega)]
            rfl
          · rw [getD_set_ne _ _ _ _ _ hz]
            exact hmid0
        · rw [if_neg hb]
          exact hmid0
      · -- node N-1 is known after the second fill
        simp only [hf1, Bool.or_false]
        by_cases hb : ((f0 orig).getD (N - 1) none).isNone = true
        · rw [if_pos hb, getD_set_self _ _ _ _ (by omega)]
          rfl
        · rw [if_neg hb]
          simpa [Option.isSome_iff_ne_none, Option.isNone_iff_eq_none] using hb
    · -- known values are never overwritten
      intro i k v hv
      have hkeep : ∀ (row : List (Option ℚ)), row.getD k none = some v →
          (f1 (f0 row)).getD k none = some v := by
        intro row hrv
        have h1 : (f0 row).getD k none = some v := by
          simp only [hf0, Bool.or_false]
          by_cases hb : (row.getD 0 none).isNone = true
          · rw [if_pos hb]
            by_cases hk : (0 : ℕ) = k
            · rw [← hk] at hrv
              rw [hrv] at hb
              simp at hb
            · rw [getD_set_ne _ _ _ _ _ hk]
              exact hrv
          · rw [if_neg hb]
            exact hrv
        simp only [hf1, Bool.or_false]
        by_cases hb : ((f0 row).getD (N - 1) none).isNone = true
        · rw [if_pos hb]
          by_cases hk : N - 1 = k
          · rw [← hk] at h1
            rw [h1] at hb
            simp at hb
          · rw [getD_set_ne _ _ _ _ _ hk]
            exact h1
        · rw [if_neg hb]
          exact h1
      rw [List.map_map]
      by_cases hi : i < energies_list.length
      · have hgl : energies_list.getD i [] = energies_list[i] := by
          rw [List.getD_eq_getElem?_getD, List.getElem?_eq_getElem hi]
          rfl
        have hgm : (energies_list.map (f1 ∘ f0)).getD i []
            = f1 (f0 energies_list[i]) := by
          rw [List.getD_eq_getElem?_getD, List.getElem?_map,
            List.getElem?_eq_getElem hi]
          rfl
        rw [hgm]
        rw [hgl] at hv
        exact hkeep _ hv
      · have hempty : energies_list.getD i [] = [] := by
          rw [List.getD_eq_getElem?_getD, List.getElem?_eq_none (by omega)]
          rfl
        rw [hempty] at hv
        simp at hv

/-- C9, witness at a concrete result with one unknown endpoint energy. -/
theorem energy_completion_and_backfill_witness :
    (1 ≤ 2 ∧ ∀ row ∈ ([[none, some 5], [some 3, none]] :
      List NEBResult.Energies), row.length = 2) ∧
    ((NEBResult.is_energy_completed [[none, some 5], [some 3, none]] = false ↔
      ∃ row ∈ ([[none, some 5], [some 3, none]] : List NEBResult.Energies),
        ∃ x ∈ row, x = none) ∧
    ∃ r1 r2,
      NEBResult.complete_energy [[none, some 5], [some 3, none]] 0 1 false
        = Except.ok r1 ∧
      NEBResult.complete_energy r1 (-1) 2 false = Except.ok r2 ∧
      (∀ row ∈ r2, (row.getD 0 none).isSome = true ∧
        (row.getD (2 - 1) none).isSome = true) ∧
      (∀ i k v, (([[none, some 5], [some 3, none]] :
          List NEBResult.Energies).getD i []).getD k none = some v →
        (r2.getD i []).getD k none = some v)) :=
  ⟨⟨by decide, by decide⟩,
    energy_completion_and_backfill [[none, some 5], [some 3, none]] 2
      (by decide) (by decide) 1 2⟩

/-- Helper: what one slot of the pool gather holds after all jobs in
`order` have stored their results. -/
theorem pool_fold_getElem? {α : Type} (f : ℕ → α) (order : List ℕ) :
    ∀ (acc : List (Option α)) (i : ℕ),
      (order.foldl (fun a j => a.set j (some (f j))) acc)[i]? =
        if i ∈ order ∧ i < acc.length then some (some (f i)) else acc[i]? := by
  induction order with
  | nil =>
    intro acc i
    simp
  | cons j rest ih =>
    intro acc i
    rw [List.foldl_cons, ih, List.length_set, List.getElem?_set]
    by_cases h1 : i ∈ rest ∧ i < acc.length
    · rw [if_pos h1, if_pos ⟨List.mem_cons_of_mem _ h1.1, h1.2⟩]
    · rw [if_neg h1]
      by_cases hj : j = i
      · subst hj
        by_cases hl : j < acc.length
        · rw [if_pos rfl, if_pos hl, if_pos ⟨List.mem_cons_self _ _, hl⟩]
        · rw [if_pos rfl, if_neg hl, if_neg (fun hc => hl hc.2),
            List.getElem?_eq_none (by omega)]
      · rw [if_neg hj]
        by_cases h2 : i ∈ j :: rest ∧ i < acc.length
        · exfalso
          rcases h2 with ⟨hm2, hlen⟩
          rcases List.mem_cons.mp hm2 with h | h
          · exact hj h.symm
          · exact h1 ⟨h, hlen⟩
        · rw [if_neg h2]

/-- Helper: for every completion order that is a permutation of the
submitted job indices, the pool gather returns exactly the in-order
results — this is the order-robustness of `Pool.map`. -/
theorem pool_gather_perm {α : Type} (f : ℕ → α) (n : ℕ) (order : List ℕ)
    (h : order.Perm (List.range n)) :
    PalNEB.pool_gather f n order = (List.range n).map (fun j => some (f j)) := by
  apply List.ext_getElem?
  intro i
  unfold PalNEB.pool_gather
  rw [pool_fold_getElem?, List.length_replicate]
  by_cases hi : i < n
  · rw [if_pos ⟨h.mem_iff.mpr (List.mem_range.mpr hi), hi⟩,
      List.getElem?_map, List.getElem?_range hi]
    rfl
  · rw [if_neg (fun hc => hi hc.2), List.getElem?_replicate, if_neg hi,
      List.getElem?_map, List.getElem?_eq_none (by rw [List.length_range]; omega)]
    rfl

/-- Helper: element-level description of the interior assembly loop of
`PalNEB.get_forces`: after the loop, `energies[i]` holds `(g i).1` for
`1 ≤ i ≤ k` and `forces[j]` holds `(g (j+1)).2` for `j < k`, and nothing
else changed. -/
theorem assembly_fold_spec (g : ℕ → ℚ × Vec) :
    ∀ (k : ℕ) (e0 : List (Option ℚ)) (f0 : List (Option Vec)),
      ((List.range' 1 k).foldl
        (fun p i => (p.1.set i (some (g i).1), p.2.set (i - 1) (some (g i).2)))
        (e0, f0)).1.length = e0.length ∧
      ((List.range' 1 k).foldl
        (fun p i => (p.1.set i (some (g i).1), p.2.set (i - 1) (some (g i).2)))
        (e0, f0)).2.length = f0.length ∧
      (∀ i, ((List.range' 1 k).foldl
        (fun p i => (p.1.set i (some (g i).1), p.2.set (i - 1) (some (g i).2)))
        (e0, f0)).1[i]? =
          if 1 ≤ i ∧ i ≤ k ∧ i < e0.length then some (some (g i).1) else e0[i]?) ∧
      (∀ j, ((List.range' 1 k).foldl
        (fun p i => (p.1.set i (some (g i).1), p.2.set (i - 1) (some (g i).2)))
        (e0, f0)).2[j]? =
          if j < k ∧ j < f0.length then some (some (g (j + 1)).2) else f0[j]?) := by
  intro k
  induction k with
  | zero =>
    intro e0 f0
    refine ⟨rfl, rfl, fun i => ?_, fun j => ?_⟩
    · rw [if_neg (by omega)]
      rfl
    · rw [if_neg (by omega)]
      rfl
  | succ k ih =>
    intro e0 f0
    obtain ⟨ih1, ih2, ih3, ih4⟩ := ih e0 f0
    have hconcat : List.range' 1 (k + 1) = List.range' 1 k ++ [1 + k] := by
      simpa using @List.range'_concat 1 1 k
    refine ⟨?_, ?_, fun i => ?_, fun j => ?_⟩
    · rw [hconcat, List.foldl_append, List.foldl_cons, List.foldl_nil]
      dsimp only
      rw [List.length_set]
      exact ih1
    · rw [hconcat, List.foldl_append, List.foldl_cons, List.foldl_nil]
      dsimp only
      rw [List.length_set]
      exact ih2
    · rw [hconcat, List.foldl_append, List.foldl_cons, List.foldl_nil]
      dsimp only
      rw [List.getElem?_set, ih1, ih3]
      by_cases hik : 1 + k = i
      · subst hik
        rw [if_pos rfl]
        by_cases hlt : 1 + k < e0.length
        · rw [if_pos hlt, if_pos ⟨by omega, by omega, hlt⟩]
        · rw [if_neg hlt, if_neg (by omega), List.getElem?_eq_none (by omega)]
      · rw [if_neg hik]
        by_cases hc : 1 ≤ i ∧ i ≤ k ∧ i < e0.length
        · rw [if_pos hc, if_pos ⟨hc.1, by omega, hc.2.2⟩]
        · rw [if_neg hc, if_neg (by omega)]
    · rw [hconcat, List.foldl_append, List.foldl_cons, List.foldl_nil]
      dsimp only
      rw [show 1 + k - 1 = k from by omega, List.getElem?_set, ih2, ih4]
      by_cases hjk : k = j
      · subst hjk
        rw [if_pos rfl]
        by_cases hlt : k < f0.length
        · rw [if_pos hlt, if_pos ⟨by omega, hlt⟩, show 1 + k = k + 1 from by omega]
        · rw [if_neg hlt, if_neg (by omega), List.getElem?_eq_none (by omega)]
      · rw [if_neg hjk]
        by_cases hc : j < k ∧ j < f0.length
        · rw [if_pos hc, if_pos ⟨by omega, hc.2⟩]
        · rw [if_neg hc, if_neg (by omega)]

/-- C2: the parallel evaluation and assembly of `PalNEB.get_forces` is
deterministic in image-index order — for every worker completion order
that is a permutation of the submitted jobs, the assembled result equals
the in-order assembly; `energies[i]` and `forces[i-1]` hold the provider
result of image `i` for every interior image; with the aseneb method only
the interior images are evaluated (the endpoint slots keep their
uninitialised `np.empty` contents), while every other method evaluates all
images and records the endpoint energies too. -/
theorem palneb_parallel_assembly (nimages : ℕ) (hn : 3 ≤ nimages)
    (ev : ℕ → ℚ × Vec) (method : String) (order : List ℕ)
    (hord : order.Perm (List.range
      (if method = "aseneb" then nimages - 2 else nimages))) :
    PalNEB.get_forces_assembly method nimages ev order
      = PalNEB.get_forces_assembly method nimages ev
          (List.range (if method = "aseneb" then nimages - 2 else nimages)) ∧
    (∀ i, 1 ≤ i → i ≤ nimages - 2 →
      (PalNEB.get_forces_assembly method nimages ev order).1[i]?
        = some (some (ev i).1) ∧
      (PalNEB.get_forces_assembly method nimages ev order).2[i - 1]?
        = some (some (ev i).2)) ∧
    (method ≠ "aseneb" →
      (PalNEB.get_forces_assembly method nimages ev order).1[0]?
        = some (some (ev 0).1) ∧
      (PalNEB.get_forces_assembly method nimages ev order).1[nimages - 1]?
        = some (some (ev (nimages - 1)).1)) ∧
    (method = "aseneb" →
      (PalNEB.get_forces_assembly method nimages ev order).1[0]? = some none ∧
      (PalNEB.get_forces_assembly method nimages ev order).1[nimages - 1]?
        = some none) := by
  by_cases hm : method = "aseneb"
  · subst hm
    rw [if_pos rfl] at hord
    have key : ∀ (ord : List ℕ), ord.Perm (List.range (nimages - 2)) →
        PalNEB.get_forces_assembly "aseneb" nimages ev ord =
          (List.range' 1 (nimages - 2)).foldl
            (fun p i => (p.1.set i (some (ev i).1), p.2.set (i - 1) (some (ev i).2)))
            (List.replicate nimages none, List.replicate (nimages - 2) none) := by
      intro ord hp
      unfold PalNEB.get_forces_assembly
      rw [if_neg (by simp)]
      simp only [pool_gather_perm (fun j => ev (j + 1)) (nimages - 2) ord hp,
        List.map_map, Function.comp_def, Option.getD_some]
      apply List.foldl_ext
      intro p i hi
      have hib := List.mem_range'_1.mp hi
      have hgetD : ((List.range (nimages - 2)).map (fun j => ev (j + 1))).getD
          (i - 1) PalNEB.ef_default = ev i := by
        rw [List.getD_eq_getElem?_getD, List.getElem?_map,
          List.getElem?_range (by omega), Option.map_some', Option.getD_some,
          show i - 1 + 1 = i from by omega]
      rw [hgetD]
    have e1 := key order hord
    have e2 := key (List.range (nimages - 2)) (List.Perm.refl _)
    obtain ⟨H1, H2, H3, H4⟩ := assembly_fold_spec ev (nimages - 2)
      (List.replicate nimages none) (List.replicate (nimages - 2) none)
    refine ⟨?_, fun i h1 h2 => ⟨?_, ?_⟩, fun hne => absurd rfl hne, fun _ => ⟨?_, ?_⟩⟩
    · rw [if_pos rfl, e1, e2]
    · rw [e1, H3 i, if_pos ⟨h1, h2, by rw [List.length_replicate]; omega⟩]
    · rw [e1, H4 (i - 1),
        if_pos ⟨by omega, by rw [List.length_replicate]; omega⟩,
        show i - 1 + 1 = i from by omega]
    · rw [e1, H3 0, if_neg (by omega), List.getElem?_replicate, if_pos (by omega)]
    · rw [e1, H3 (nimages - 1), if_neg (by omega), List.getElem?_replicate,
        if_pos (by omega)]
  · rw [if_neg hm] at hord
    have key : ∀ (ord : List ℕ), ord.Perm (List.range nimages) →
        PalNEB.get_forces_assembly method nimages ev ord =
          (List.range' 1 (nimages - 2)).foldl
            (fun p i => (p.1.set i (some (ev i).1), p.2.set (i - 1) (some (ev i).2)))
            (((List.replicate nimages none).set 0 (some (ev 0).1)).set
              (nimages - 1) (some (ev (nimages - 1)).1),
             List.replicate (nimages - 2) none) := by
      intro ord hp
      unfold PalNEB.get_forces_assembly
      rw [if_pos hm]
      simp only [pool_gather_perm ev nimages ord hp,
        List.map_map, Function.comp_def, Option.getD_some]
      have hgetD : ∀ m, m < nimages →
          ((List.range nimages).map (fun j => ev j)).getD m PalNEB.ef_default
            = ev m := by
        intro m hm2
        rw [List.getD_eq_getElem?_getD, List.getElem?_map,
          List.getElem?_range hm2, Option.map_some', Option.getD_some]
      rw [hgetD 0 (by omega), hgetD (nimages - 1) (by omega)]
      apply List.foldl_ext
      intro p i hi
      have hib := List.mem_range'_1.mp hi
      rw [hgetD i (by omega)]
    have e1 := key order hord
    have e2 := key (List.range nimages) (List.Perm.refl _)
    obtain ⟨H1, H2, H3, H4⟩ := assembly_fold_spec ev (nimages - 2)
      (((List.replicate nimages none).set 0 (some (ev 0).1)).set
        (nimages - 1) (some (ev (nimages - 1)).1))
      (List.replicate (nimages - 2) none)
    have hlen : (((List.replicate nimages (none : Option ℚ)).set 0
        (some (ev 0).1)).set (nimages - 1) (some (ev (nimages - 1)).1)).length
        = nimages := by
      rw [List.length_set, List.length_set, List.length_replicate]
    refine ⟨?_, fun i h1 h2 => ⟨?_, ?_⟩, fun _ => ⟨?_, ?_⟩, fun he => absurd he hm⟩
    · rw [if_neg hm, e1, e2]
    · rw [e1, H3 i, if_pos ⟨h1, h2, by rw [hlen]; omega⟩]
    · rw [e1, H4 (i - 1),
        if_pos ⟨by omega, by rw [List.length_replicate]; omega⟩,
        show i - 1 + 1 = i from by omega]
    · rw [e1, H3 0, if_neg (by omega), List.getElem?_set,
        if_neg (by omega), List.getElem?_set, if_pos rfl,
        if_pos (by rw [List.length_replicate]; omega)]
    · rw [e1, H3 (nimages - 1), if_neg (by omega), List.getElem?_set,
        if_pos rfl, if_pos (by rw [List.length_set, List.length_replicate]; omega)]

/-- C2, witness at a 4-image band with a scrambled completion order, for a
non-aseneb method and endpoint recording. -/
theorem palneb_parallel_assembly_witness :
    (3 ≤ 4 ∧ ([2, 0, 3, 1] : List ℕ).Perm (List.range
      (if ("improvedtangent" : String) = "aseneb" then 4 - 2 else 4))) ∧
    (PalNEB.get_forces_assembly "improvedtangent" 4
        (fun j : ℕ => ((j : ℚ), [(j : ℚ)])) [2, 0, 3, 1]
      = PalNEB.get_forces_assembly "improvedtangent" 4
          (fun j : ℕ => ((j : ℚ), [(j : ℚ)]))
          (List.range (if ("improvedtangent" : String) = "aseneb" then 4 - 2 else 4)) ∧
    (∀ i, 1 ≤ i → i ≤ 4 - 2 →
      (PalNEB.get_forces_assembly "improvedtangent" 4
        (fun j : ℕ => ((j : ℚ), [(j : ℚ)])) [2, 0, 3, 1]).1[i]?
          = some (some ((fun j : ℕ => ((j : ℚ), [(j : ℚ)])) i).1) ∧
      (PalNEB.get_forces_assembly "improvedtangent" 4
        (fun j : ℕ => ((j : ℚ), [(j : ℚ)])) [2, 0, 3, 1]).2[i - 1]?
          = some (some ((fun j : ℕ => ((j : ℚ), [(j : ℚ)])) i).2)) ∧
    (("improvedtangent" : String) ≠ "aseneb" →
      (PalNEB.get_forces_assembly "improvedtangent" 4
        (fun j : ℕ => ((j : ℚ), [(j : ℚ)])) [2, 0, 3, 1]).1[0]?
          = some (some ((fun j : ℕ => ((j : ℚ), [(j : ℚ)])) 0).1) ∧
      (PalNEB.get_forces_assembly "improvedtangent" 4
        (fun j : ℕ => ((j : ℚ), [(j : ℚ)])) [2, 0, 3, 1]).1[4 - 1]?
          = some (some ((fun j : ℕ => ((j : ℚ), [(j : ℚ)])) (4 - 1)).1)) ∧
    (("improvedtangent" : String) = "aseneb" →
      (PalNEB.get_forces_assembly "improvedtangent" 4
        (fun j : ℕ => ((j : ℚ), [(j : ℚ)])) [2, 0, 3, 1]).1[0]? = some none ∧
      (PalNEB.get_forces_assembly "improvedtangent" 4
        (fun j : ℕ => ((j : ℚ), [(j : ℚ)])) [2, 0, 3, 1]).1[4 - 1]? = some none)) :=
  ⟨⟨by decide, by decide⟩,
    palneb_parallel_assembly 4 (by decide) (fun j : ℕ => ((j : ℚ), [(j : ℚ)]))
      "improvedtangent" [2, 0, 3, 1] (by decide)⟩

/-- Helper: numpy argmax returns an in-range index on nonempty data. -/
theorem np_argmax_lt_length : ∀ (l : List ℚ), l ≠ [] → np_argmax l < l.length := by
  intro l
  induction l with
  | nil => intro h; exact absurd rfl h
  | cons x xs ih =>
    intro _
    simp only [np_argmax]
    by_cases hxs : xs = []
    · rw [if_pos hxs]
      simp
    · rw [if_neg hxs]
      by_cases hlt : x < xs.getD (np_argmax xs) 0
      · rw [if_pos hlt]
        have h2 := ih hxs
        simp only [List.length_cons]
        omega
      · rw [if_neg hlt]
        simp

/-- Helper: the element at the numpy argmax is a maximum of the list. -/
theorem np_argmax_is_max : ∀ (l : List ℚ) (j : ℕ), j < l.length →
    l.getD j 0 ≤ l.getD (np_argmax l) 0 := by
  intro l
  induction l with
  | nil => intro j hj; simp at hj
  | cons x xs ih =>
    intro j hj
    simp only [np_argmax]
    by_cases hxs : xs = []
    · subst hxs
      rw [if_pos rfl]
      have hj0 : j = 0 := by simp at hj; omega
      subst hj0
      exact le_refl _
    · rw [if_neg hxs]
      by_cases hlt : x < xs.getD (np_argmax xs) 0
      · rw [if_pos hlt]
        cases j with
        | zero =>
          rw [List.getD_cons_zero, List.getD_cons_succ]
          exact le_of_lt hlt
        | succ j2 =>
          rw [List.getD_cons_succ, List.getD_cons_succ]
          exact ih j2 (by simpa using hj)
      · rw [if_neg hlt]
        push_neg at hlt
        cases j with
        | zero => exact le_refl _
        | succ j2 =>
          rw [List.getD_cons_succ, List.getD_cons_zero]
          exact le_trans (ih j2 (by simpa using hj)) hlt

/-- Helper: every element strictly before the numpy argmax is strictly
below the maximum — the first-occurrence tie-break. -/
theorem np_argmax_first : ∀ (l : List ℚ) (j : ℕ), j < np_argmax l →
    l.getD j 0 < l.getD (np_argmax l) 0 := by
  intro l
  induction l with
  | nil => intro j hj; simp [np_argmax] at hj
  | cons x xs ih =>
    intro j hj
    simp only [np_argmax] at hj ⊢
    by_cases hxs : xs = []
    · rw [if_pos hxs] at hj
      exact absurd hj (Nat.not_lt_zero j)
    · rw [if_neg hxs] at hj ⊢
      by_cases hlt : x < xs.getD (np_argmax xs) 0
      · rw [if_pos hlt] at hj ⊢
        cases j with
        | zero =>
          rw [List.getD_cons_zero, List.getD_cons_succ]
          exact hlt
        | succ j2 =>
          rw [List.getD_cons_succ, List.getD_cons_succ]
          exact ih j2 (by omega)
      · rw [if_neg hlt] at hj
        exact absurd hj (Nat.not_lt_zero j)

/-- Helper: length of the interior slice `energies[1:-1]`. -/
theorem interior_length (energies : List ℚ) :
    (PalNEB.interior_energies energies).length = energies.length - 2 := by
  unfold PalNEB.interior_energies
  rw [List.length_dropLast, List.length_drop]
  omega

/-- Helper: elements of the interior slice `energies[1:-1]`. -/
theorem interior_getD (energies : List ℚ) (j : ℕ)
    (hj : j < energies.length - 2) :
    (PalNEB.interior_energies energies).getD j 0 = energies.getD (j + 1) 0 := by
  unfold PalNEB.interior_energies
  rw [List.getD_eq_getElem?_getD, List.dropLast_eq_take, List.getElem?_take,
    if_pos (by rw [List.length_drop]; omega), List.getElem?_drop,
    ← List.getD_eq_getElem?_getD, Nat.add_comm]

/-- Helper: `smul` preserves length. -/
theorem smul_length (c : ℚ) (v : Vec) : (smul c v).length = v.length := by
  simp [smul]

/-- Helper: length of an elementwise difference. -/
theorem vsub_length (a b : Vec) : (vsub a b).length = min a.length b.length := by
  simp [vsub]

/-- Helper: vdot is homogeneous in a scaled left argument. -/
theorem dot_smul (c : ℚ) : ∀ (v w : Vec), dot (smul c v) w = c * dot v w := by
  intro v
  induction v with
  | nil => intro w; simp [dot, smul]
  | cons x xs ih =>
    intro w
    cases w with
    | nil => simp [dot, smul]
    | cons y ys =>
      have h2 := ih ys
      simp only [dot, smul, List.map_cons, List.zipWith_cons_cons,
        List.sum_cons] at h2 ⊢
      rw [h2]
      ring

/-- Helper: vdot distributes over an elementwise difference of vectors of
equal length. -/
theorem dot_vsub : ∀ (a b w : Vec), a.length = b.length →
    dot (vsub a b) w = dot a w - dot b w := by
  intro a
  induction a with
  | nil =>
    intro b w h
    cases b with
    | nil => simp [dot, vsub]
    | cons y ys => simp at h
  | cons x xs ih =>
    intro b w h
    cases b with
    | nil => simp at h
    | cons y ys =>
      cases w with
      | nil => simp [dot, vsub]
      | cons z zs =>
        have h3 := ih ys zs (by simpa using h)
        simp only [dot, vsub, List.zipWith_cons_cons, List.sum_cons] at h3 ⊢
        rw [h3]
        ring

/-- Helper: vdot distributes over an elementwise sum of vectors of equal
length. -/
theorem dot_vadd : ∀ (a b w : Vec), a.length = b.length →
    dot (vadd a b) w = dot a w + dot b w := by
  intro a
  induction a with
  | nil =>
    intro b w h
    cases b with
    | nil => simp [dot, vadd]
    | cons y ys => simp at h
  | cons x xs ih =>
    intro b w h
    cases b with
    | nil => simp at h
    | cons y ys =>
      cases w with
      | nil => simp [dot, vadd]
      | cons z zs =>
        have h3 := ih ys zs (by simpa using h)
        simp only [dot, vadd, List.zipWith_cons_cons, List.sum_cons] at h3 ⊢
        rw [h3]
        ring

/-- C1: with climbing enabled, each call of the force-projection loop of
`PalNEB.get_forces` treats exactly one interior image specially: `imax` is
interior (between 1 and nimages-2), is selected by strict `>` comparison
with ties broken to the lowest index, its force for the aseneb method
becomes `F - 2 (F.t) t / |t|^2` — independent of the spring terms, with
the tangential component inverted — while every other interior image goes
through `add_image_force`, which removes the tangential component and adds
the spring force along the tangent. -/
theorem palneb_climbing_image (nimages : ℕ) (hn : 3 ≤ nimages)
    (energies : List ℚ) (hlen : energies.length = nimages)
    (force tangent : ℕ → Vec) (springDelta : ℕ → ℚ)
    (hT : ∀ i, dot (tangent i) (tangent i) ≠ 0)
    (hF : ∀ i, (force i).length = (tangent i).length) :
    (1 ≤ PalNEB.state_imax energies ∧ PalNEB.state_imax energies ≤ nimages - 2) ∧
    (∀ i, 1 ≤ i → i ≤ nimages - 2 →
      energies.getD i 0 ≤ energies.getD (PalNEB.state_imax energies) 0 ∧
      (i < PalNEB.state_imax energies →
        energies.getD i 0 < energies.getD (PalNEB.state_imax energies) 0)) ∧
    (PalNEB.neb_image_force true "aseneb" energies force tangent springDelta
        (PalNEB.state_imax energies) =
      vsub (force (PalNEB.state_imax energies))
        (smul (2 * dot (force (PalNEB.state_imax energies))
            (tangent (PalNEB.state_imax energies)) /
          dot (tangent (PalNEB.state_imax energies))
            (tangent (PalNEB.state_imax energies)))
          (tangent (PalNEB.state_imax energies)))) ∧
    (∀ springDelta2 : ℕ → ℚ, PalNEB.neb_image_force true "aseneb" energies force
        tangent springDelta2 (PalNEB.state_imax energies)
      = PalNEB.neb_image_force true "aseneb" energies force tangent springDelta
        (PalNEB.state_imax energies)) ∧
    (dot (PalNEB.neb_image_force true "aseneb" energies force tangent springDelta
        (PalNEB.state_imax energies)) (tangent (PalNEB.state_imax energies))
      = - dot (force (PalNEB.state_imax energies))
          (tangent (PalNEB.state_imax energies))) ∧
    (∀ i, 1 ≤ i → i ≤ nimages - 2 → i ≠ PalNEB.state_imax energies →
      PalNEB.neb_image_force true "aseneb" energies force tangent springDelta i
        = PalNEB.add_image_force (dot (force i) (tangent i)) (tangent i)
            (force i) (springDelta i) ∧
      dot (PalNEB.neb_image_force true "aseneb" energies force tangent
        springDelta i) (tangent i) = springDelta i) ∧
    (∀ i, 1 ≤ i → i ≤ nimages - 2 →
      (PalNEB.get_forces_loop true "aseneb" energies force tangent springDelta
        nimages)[i - 1]?
      = some (PalNEB.neb_image_force true "aseneb" energies force tangent
          springDelta i)) := by
  have hint_len : (PalNEB.interior_energies energies).length = nimages - 2 := by
    rw [interior_length, hlen]
  have hne : PalNEB.interior_energies energies ≠ [] := by
    intro hc
    rw [hc] at hint_len
    simp at hint_len
    omega
  have hr := np_argmax_lt_length _ hne
  rw [hint_len] at hr
  have him1 : 1 ≤ PalNEB.state_imax energies := by
    unfold PalNEB.state_imax
    omega
  have him2 : PalNEB.state_imax energies ≤ nimages - 2 := by
    unfold PalNEB.state_imax
    omega
  have hval : (PalNEB.interior_energies energies).getD
      (np_argmax (PalNEB.interior_energies energies)) 0
      = energies.getD (PalNEB.state_imax energies) 0 := by
    rw [interior_getD energies _ (by omega)]
    unfold PalNEB.state_imax
    rw [Nat.add_comm]
  have hredgen : ∀ sp : ℕ → ℚ,
      PalNEB.neb_image_force true "aseneb" energies force tangent sp
        (PalNEB.state_imax energies)
      = vsub (force (PalNEB.state_imax energies))
          (smul (2 * dot (force (PalNEB.state_imax energies))
              (tangent (PalNEB.state_imax energies)) /
            dot (tangent (PalNEB.state_imax energies))
              (tangent (PalNEB.state_imax energies)))
            (tangent (PalNEB.state_imax energies))) := by
    intro sp
    simp only [PalNEB.neb_image_force]
    rw [if_pos ⟨trivial, trivial⟩, if_pos trivial]
  refine ⟨⟨him1, him2⟩, ?_, hredgen springDelta, ?_, ?_, ?_, ?_⟩
  · intro i h1 h2
    have hgi : energies.getD i 0
        = (PalNEB.interior_energies energies).getD (i - 1) 0 := by
      rw [interior_getD energies (i - 1) (by omega),
        show i - 1 + 1 = i from by omega]
    constructor
    · rw [hgi, ← hval]
      exact np_argmax_is_max _ (i - 1) (by omega)
    · intro hlt
      rw [hgi, ← hval]
      apply np_argmax_first
      unfold PalNEB.state_imax at hlt
      omega
  · intro sp2
    rw [hredgen sp2, hredgen springDelta]
  · rw [hredgen springDelta,
      dot_vsub _ _ _ (by rw [smul_length]; exact hF _), dot_smul,
      div_mul_cancel₀ _ (hT _)]
    ring
  · intro i h1 h2 hne2
    have hr1 : PalNEB.neb_image_force true "aseneb" energies force tangent
        springDelta i
        = PalNEB.add_image_force (dot (force i) (tangent i)) (tangent i)
            (force i) (springDelta i) := by
      simp only [PalNEB.neb_image_force]
      rw [if_neg (fun hc => hne2 hc.1)]
    refine ⟨hr1, ?_⟩
    rw [hr1]
    unfold PalNEB.add_image_force
    rw [dot_vadd _ _ _ (by
        rw [vsub_length, smul_length, smul_length, hF i, Nat.min_self]),
      dot_vsub _ _ _ (by rw [smul_length]; exact hF i), dot_smul, dot_smul,
      div_mul_cancel₀ _ (hT i), div_mul_cancel₀ _ (hT i)]
    ring
  · intro i h1 h2
    unfold PalNEB.get_forces_loop
    rw [List.getElem?_map, List.getElem?_range' 1 1 (show i - 1 < nimages - 2 from by omega),
      Option.map_some', show 1 + 1 * (i - 1) = i from by omega]

/-- C1, witness at a concrete 4-image band with energies [0, 1, 2, 0],
unit tangents and constant forces. -/
theorem palneb_climbing_image_witness :
    (3 ≤ 4 ∧ ([0, 1, 2, 0] : List ℚ).length = 4 ∧
      (∀ i : ℕ, dot ((fun _ : ℕ => ([1, 0] : Vec)) i)
        ((fun _ : ℕ => ([1, 0] : Vec)) i) ≠ 0) ∧
      (∀ i : ℕ, ((fun _ : ℕ => ([1, 1] : Vec)) i).length
        = ((fun _ : ℕ => ([1, 0] : Vec)) i).length)) ∧
    ((1 ≤ PalNEB.state_imax [0, 1, 2, 0] ∧
      PalNEB.state_imax [0, 1, 2, 0] ≤ 4 - 2) ∧
    (∀ i, 1 ≤ i → i ≤ 4 - 2 →
      ([0, 1, 2, 0] : List ℚ).getD i 0
        ≤ ([0, 1, 2, 0] : List ℚ).getD (PalNEB.state_imax [0, 1, 2, 0]) 0 ∧
      (i < PalNEB.state_imax [0, 1, 2, 0] →
        ([0, 1, 2, 0] : List ℚ).getD i 0
          < ([0, 1, 2, 0] : List ℚ).getD (PalNEB.state_imax [0, 1, 2, 0]) 0)) ∧
    (PalNEB.neb_image_force true "aseneb" [0, 1, 2, 0]
        (fun _ : ℕ => ([1, 1] : Vec)) (fun _ : ℕ => ([1, 0] : Vec))
        (fun _ : ℕ => (3 : ℚ)) (PalNEB.state_imax [0, 1, 2, 0]) =
      vsub ((fun _ : ℕ => ([1, 1] : Vec)) (PalNEB.state_imax [0, 1, 2, 0]))
        (smul (2 * dot ((fun _ : ℕ => ([1, 1] : Vec)) (PalNEB.state_imax [0, 1, 2, 0]))
            ((fun _ : ℕ => ([1, 0] : Vec)) (PalNEB.state_imax [0, 1, 2, 0])) /
          dot ((fun _ : ℕ => ([1, 0] : Vec)) (PalNEB.state_imax [0, 1, 2, 0]))
            ((fun _ : ℕ => ([1, 0] : Vec)) (PalNEB.state_imax [0, 1, 2, 0])))
          ((fun _ : ℕ => ([1, 0] : Vec)) (PalNEB.state_imax [0, 1, 2, 0])))) ∧
    (∀ springDelta2 : ℕ → ℚ, PalNEB.neb_image_force true "aseneb" [0, 1, 2, 0]
        (fun _ : ℕ => ([1, 1] : Vec)) (fun _ : ℕ => ([1, 0] : Vec))
        springDelta2 (PalNEB.state_imax [0, 1, 2, 0])
      = PalNEB.neb_image_force true "aseneb" [0, 1, 2, 0]
        (fun _ : ℕ => ([1, 1] : Vec)) (fun _ : ℕ => ([1, 0] : Vec))
        (fun _ : ℕ => (3 : ℚ)) (PalNEB.state_imax [0, 1, 2, 0])) ∧
    (dot (PalNEB.neb_image_force true "aseneb" [0, 1, 2, 0]
        (fun _ : ℕ => ([1, 1] : Vec)) (fun _ : ℕ => ([1, 0] : Vec))
        (fun _ : ℕ => (3 : ℚ)) (PalNEB.state_imax [0, 1, 2, 0]))
        ((fun _ : ℕ => ([1, 0] : Vec)) (PalNEB.state_imax [0, 1, 2, 0]))
      = - dot ((fun _ : ℕ => ([1, 1] : Vec)) (PalNEB.state_imax [0, 1, 2, 0]))
          ((fun _ : ℕ => ([1, 0] : Vec)) (PalNEB.state_imax [0, 1, 2, 0]))) ∧
    (∀ i, 1 ≤ i → i ≤ 4 - 2 → i ≠ PalNEB.state_imax [0, 1, 2, 0] →
      PalNEB.neb_image_force true "aseneb" [0, 1, 2, 0]
        (fun _ : ℕ => ([1, 1] : Vec)) (fun _ : ℕ => ([1, 0] : Vec))
        (fun _ : ℕ => (3 : ℚ)) i
        = PalNEB.add_image_force
            (dot ((fun _ : ℕ => ([1, 1] : Vec)) i) ((fun _ : ℕ => ([1, 0] : Vec)) i))
            ((fun _ : ℕ => ([1, 0] : Vec)) i) ((fun _ : ℕ => ([1, 1] : Vec)) i)
            ((fun _ : ℕ => (3 : ℚ)) i) ∧
      dot (PalNEB.neb_image_force true "aseneb" [0, 1, 2, 0]
        (fun _ : ℕ => ([1, 1] : Vec)) (fun _ : ℕ => ([1, 0] : Vec))
        (fun _ : ℕ => (3 : ℚ)) i) ((fun _ : ℕ => ([1, 0] : Vec)) i)
        = (fun _ : ℕ => (3 : ℚ)) i) ∧
    (∀ i, 1 ≤ i → i ≤ 4 - 2 →
      (PalNEB.get_forces_loop true "aseneb" [0, 1, 2, 0]
        (fun _ : ℕ => ([1, 1] : Vec)) (fun _ : ℕ => ([1, 0] : Vec))
        (fun _ : ℕ => (3 : ℚ)) 4)[i - 1]?
      = some (PalNEB.neb_image_force true "aseneb" [0, 1, 2, 0]
          (fun _ : ℕ => ([1, 1] : Vec)) (fun _ : ℕ => ([1, 0] : Vec))
          (fun _ : ℕ => (3 : ℚ)) i))) :=
  ⟨⟨by decide, by decide, fun i => by simp [dot], fun i => rfl⟩,
    palneb_climbing_image 4 (by decide) [0, 1, 2, 0] (by decide)
      (fun _ : ℕ => ([1, 1] : Vec)) (fun _ : ℕ => ([1, 0] : Vec))
      (fun _ : ℕ => (3 : ℚ)) (fun i => by simp [dot]) (fun i => rfl)⟩
